import Mathlib

/-!
Verification development for the `europe-elects-csv` library (`src/lib.rs`,
`src/errors.rs`): a parser for the Europe Elects opinion-poll CSV format.

The Rust code is shallowly embedded as executable Lean definitions:
* `f32` string parsing (`str::parse::<f32>`) is modelled by `parseF32`,
  following the grammar documented for Rust's float `FromStr`
  (optional sign; `inf`/`infinity`/`nan` case-insensitively; or a decimal
  number with optional fraction and exponent).  Finite values are kept
  exact as a signed decimal mantissa with a base-10 exponent
  (`F32.finite m e` denotes `m * 10 ^ e`): IEEE rounding and
  overflow-to-infinity are not modelled, but the *success/failure* set of
  the parse — the only thing the decode logic branches on — coincides with
  Rust's, which fails exactly on grammar violations, and every value a
  claim mentions comes from a single concrete spelling.
* fallible serde cell decoders return `DResult`, whose `panicked`
  constructor models a Rust `panic!` / `expect` abort as distinct from a
  recoverable decode error (`err`).
* `HashMap` construction/lookup in `init_jurisdiction` is modelled by an
  association list with `List.lookup`; the key set is duplicate-free, so
  the two agree.
* the `csv` crate reader is modelled by splitting the input into
  newline-separated records of comma-separated fields (the inputs under
  analysis contain no quoted fields), with the first record as the header
  row, and a record whose field count differs from the header failing with
  an error, as the default non-flexible reader does.  File-system I/O of
  `ReaderBuilder::from_path` is abstracted: the file's text is passed as an
  explicit argument.
* `chrono::NaiveDate` deserialization of `YYYY-MM-DD` cells is modelled by
  `parseDate`, and `NaiveDate` subtraction / `Duration::num_days` by the
  standard civil-calendar day-number function `daysFromCivil`.
-/

namespace EuropeElects

/-- Result of a fallible Rust computation: `ok` a value, `err` a recoverable
error (serde/csv decode error carried to the caller), or `panicked`, which
models a Rust `panic!`/`expect` process abort with its message. -/
inductive DResult (ε : Type) (α : Type) where
  | ok (val : α)
  | err (e : ε)
  | panicked (msg : String)
deriving DecidableEq, Repr

def DResult.bind : DResult ε α → (α → DResult ε β) → DResult ε β
  | .ok a, f => f a
  | .err e, _ => .err e
  | .panicked m, _ => .panicked m

instance : Monad (DResult ε) where
  pure := DResult.ok
  bind := DResult.bind

/-- Whether an outcome delivered a value: `true` only for `ok`; `false`
both for a returned error value and for a panic. -/
def DResult.isOk : DResult ε α → Bool
  | .ok _ => true
  | .err _ => false
  | .panicked _ => false

/-- An `f32` value as produced by Rust's `str::parse::<f32>`, kept exact:
`finite m e` denotes the number `m * 10 ^ e` (signed decimal mantissa and
base-10 exponent, written as parsed), and the special spellings produce
infinities / NaN. -/
inductive F32 where
  | finite (mant : Int) (exp10 : Int)
  | inf
  | negInf
  | nan
deriving DecidableEq, Repr

def digitsVal (cs : List Char) : Nat :=
  cs.foldl (fun a c => a * 10 + (c.toNat - 48)) 0

def allDigits (cs : List Char) : Bool :=
  cs.all (fun c => c.isDigit)

/-- The exponent part of a float literal, after the `e`/`E`:
an optional sign followed by a nonempty digit string. -/
def parseExpPart (cs : List Char) : Option Int :=
  match cs with
  | '+' :: rest =>
      if rest ≠ [] ∧ allDigits rest then some (digitsVal rest : Int) else none
  | '-' :: rest =>
      if rest ≠ [] ∧ allDigits rest then some (-(digitsVal rest : Int)) else none
  | rest =>
      if rest ≠ [] ∧ allDigits rest then some (digitsVal rest : Int) else none

/-- The mantissa of a float literal, `Count '.'? Count?` or `'.' Count`,
returned as the digit string's value together with the length of the
fractional part. -/
def parseMantissa (cs : List Char) : Option (Nat × Nat) :=
  let ip := cs.takeWhile (fun c => c.isDigit)
  let rest := cs.dropWhile (fun c => c.isDigit)
  match rest with
  | [] => if ip = [] then none else some (digitsVal ip, 0)
  | '.' :: fp =>
      if allDigits fp ∧ (ip ≠ [] ∨ fp ≠ []) then
        some (digitsVal (ip ++ fp), fp.length)
      else none
  | _ => none

/-- A float literal without sign: mantissa with optional `e`/`E` exponent,
as an unsigned mantissa and a base-10 exponent. -/
def parseNumber (cs : List Char) : Option (Nat × Int) :=
  let mant := cs.takeWhile (fun c => c ≠ 'e' ∧ c ≠ 'E')
  let rest := cs.dropWhile (fun c => c ≠ 'e' ∧ c ≠ 'E')
  match rest with
  | [] => (parseMantissa mant).map (fun m => (m.1, -(m.2 : Int)))
  | _ :: ex =>
      match parseMantissa mant, parseExpPart ex with
      | some m, some p => some (m.1, p - (m.2 : Int))
      | _, _ => none

/-- Model of Rust `str::parse::<f32>`: optional sign, then `inf`,
`infinity` or `nan` case-insensitively, or a decimal number. -/
def parseF32 (s : String) : Option F32 :=
  let cs := s.toList
  let signed : Bool × List Char :=
    match cs with
    | '+' :: r => (false, r)
    | '-' :: r => (true, r)
    | r => (false, r)
  let neg := signed.1
  let rest := signed.2
  let low := rest.map Char.toLower
  if low = "inf".toList ∨ low = "infinity".toList then
    some (if neg then F32.negInf else F32.inf)
  else if low = "nan".toList then some F32.nan
  else
    match parseNumber rest with
    | some m =>
        some (F32.finite (if neg then -(m.1 : Int) else (m.1 : Int)) m.2)
    | none => none

/-- Model of `str::contains(char)`. -/
def containsChar (c : Char) (s : String) : Bool :=
  s.toList.contains c

/-- Model of `str::trim_end_matches('%')`: removes every trailing `'%'`. -/
def trimEndPercent (s : String) : String :=
  String.mk ((s.toList.reverse.dropWhile (fun c => c = '%')).reverse)

/-- Model of `str::contains(&str)`: substring containment on the character lists. -/
def isSubstrOf (needle : List Char) : List Char → Bool
  | [] => needle.isEmpty
  | h :: t => needle.isPrefixOf (h :: t) || isSubstrOf needle t

/-- Model of `Percentage(f32)`: a number written with a trailing `%` in source. -/
structure Percentage where
  value : F32
deriving DecidableEq, Repr

/-- Model of `Seats(f32)`: a number written without a `%` marker. -/
structure Seats where
  value : F32
deriving DecidableEq, Repr

/-- Model of `enum PercentageOrSeats`. -/
inductive PercentageOrSeats where
  | Percentage (v : Percentage)
  | Seats (v : Seats)
deriving DecidableEq, Repr

/-- Model of `enum PollOption<T>`: a value or the explicit `NotAvailable` marker. -/
inductive PollOption (T : Type) where
  | NotAvailable
  | Some (val : T)
deriving DecidableEq, Repr

/-- Model of `enum Scope`. -/
inductive Scope where
  | National
  | European
deriving DecidableEq, Repr

/-- Model of `enum SampleSizeQualification`. -/
inductive SampleSizeQualification where
  | Provided
  | EstimatedAssumed
deriving DecidableEq, Repr

/-- Model of `impl Deserialize for PollOption<String>` (lib.rs 517-528): the two
sentinel spellings, matched exactly, give `NotAvailable`; anything else is
kept as the string.  This decoder never fails. -/
def decodePollOptionString (val : String) : PollOption String :=
  if val = "Not Available" ∨ val = "N/A" then .NotAvailable else .Some val

/-- Model of `impl Deserialize for Scope` (lib.rs 530-542). -/
def decodeScope (val : String) : DResult String Scope :=
  if val = "National" then .ok .National
  else if val = "European" then .ok .European
  else .err "Failed to parse Scope"

/-- Model of `impl Deserialize for PollOption<f32>` (lib.rs 544-559): first tries the
numeric parse, then the exact sentinel match, then fails. -/
def decodePollOptionF32 (val : String) : DResult String (PollOption F32) :=
  match parseF32 val with
  | some v => .ok (.Some v)
  | none =>
      if val = "Not Available" ∨ val = "N/A" then .ok .NotAvailable
      else .err "Failed to parse PollOption<f32>"

/-- Model of `impl Deserialize for PollOption<SampleSizeQualification>`
(lib.rs 561-576). -/
def decodePollOptionSampleSizeQualification (val : String) :
    DResult String (PollOption SampleSizeQualification) :=
  if val = "Provided" then .ok (.Some .Provided)
  else if val = "Estimated/Assumed" then .ok (.Some .EstimatedAssumed)
  else if val = "Not Available" ∨ val = "N/A" then .ok .NotAvailable
  else .err "Failed to parse SampleSizeQualification"

/-- Model of `impl Deserialize for PollOption<Percentage>` (lib.rs 578-599): if the
text contains `'%'` anywhere, all trailing `'%'` are stripped and the rest
is parsed, with a *panic* (`expect`) on parse failure; otherwise the
sentinels are recognized by *substring* containment (`val.contains`);
otherwise a decode error. -/
def decodePollOptionPercentage (val : String) :
    DResult String (PollOption Percentage) :=
  if containsChar '%' val then
    match parseF32 (trimEndPercent val) with
    | some v => .ok (.Some ⟨v⟩)
    | none => .panicked "Should be able to parse percentage as f32"
  else if isSubstrOf ("Not Available".toList) val.toList ||
          isSubstrOf ("N/A".toList) val.toList then .ok .NotAvailable
  else .err "Failed to parse PollOption<Percentage>"

/-- Model of `impl Deserialize for PollOption<PercentageOrSeats>` (lib.rs 601-628):
the sentinels are matched exactly first; then text containing `'%'` is the
Percentage branch (trailing `'%'` stripped, parse failure *panics* via
`expect`); otherwise a successful plain parse is the Seats branch and a
failed one is a decode error. -/
def decodePollOptionPercentageOrSeats (val : String) :
    DResult String (PollOption PercentageOrSeats) :=
  if val = "Not Available" ∨ val = "N/A" then .ok .NotAvailable
  else if containsChar '%' val then
    match parseF32 (trimEndPercent val) with
    | some v => .ok (.Some (.Percentage ⟨v⟩))
    | none => .panicked "Should be able to parse percentage as f32"
  else
    match parseF32 val with
    | some v => .ok (.Some (.Seats ⟨v⟩))
    | none => .err "Seats could not be parsed as f32"

/-- A `chrono::NaiveDate`: a calendar date with no time component.  The
claims only exercise plain `YYYY-MM-DD` dates with non-negative years, so
the year is a `Nat`. -/
structure Date where
  year : Nat
  month : Nat
  day : Nat
deriving DecidableEq, Repr

def isLeapYear (y : Nat) : Bool :=
  (y % 4 == 0 && y % 100 != 0) || y % 400 == 0

def daysInMonth (y m : Nat) : Nat :=
  if m = 2 then (if isLeapYear y then 29 else 28)
  else if m = 4 ∨ m = 6 ∨ m = 9 ∨ m = 11 then 30
  else 31

/-- Model of `chrono::NaiveDate` deserialization of an ISO `YYYY-MM-DD` cell:
three dash-separated digit groups forming a valid calendar date. -/
def parseDate (s : String) : Option Date :=
  match s.toList.splitOn '-' with
  | [ys, ms, ds] =>
      if ys ≠ [] ∧ ms ≠ [] ∧ ds ≠ [] ∧
         allDigits ys ∧ allDigits ms ∧ allDigits ds then
        let y := digitsVal ys
        let m := digitsVal ms
        let d := digitsVal ds
        if 1 ≤ m ∧ m ≤ 12 ∧ 1 ≤ d ∧ d ≤ daysInMonth y m then
          some ⟨y, m, d⟩
        else none
      else none
  | _ => none

/-- The civil-calendar day number of a date (days since 1970-01-01),
so that `chrono::NaiveDate` subtraction followed by
`Duration::num_days` is the difference of day numbers. -/
def daysFromCivil (dt : Date) : Int :=
  let y : Int := if dt.month ≤ 2 then (dt.year : Int) - 1 else (dt.year : Int)
  let era : Int := (if 0 ≤ y then y else y - 399) / 400
  let yoe : Int := y - era * 400
  let mp : Int := ((dt.month : Int) + 9) % 12
  let doy : Int := (153 * mp + 2) / 5 + (dt.day : Int) - 1
  let doe : Int := yoe * 365 + yoe / 4 - yoe / 100 + doy
  era * 146097 + doe - 719468

/-- Model of `enum Jurisdiction` (lib.rs 23-75). -/
inductive Jurisdiction where
  | Albania
  | Andorra
  | Armenia
  | Austria
  | BelgiumBrussels
  | BelgiumFlanders
  | BelgiumWallonia
  | Bulgaria
  | Croatia
  | Cyprus
  | Czechia
  | Denmark
  | Estonia
  | Finland
  | France
  | Georgia
  | Germany
  | Gibraltar
  | Greece
  | Hungary
  | Iceland
  | Ireland
  | Italy
  | Kosovo
  | Latvia
  | Lithuania
  | Luxembourg
  | Malta
  | Moldova
  | Montenegro
  | Netherlands
  | NorthMacedonia
  | Norway
  | Poland
  | Portugal
  | Romania
  | Russia
  | Serbia
  | Slovakia
  | Slovenia
  | Spain
  | Sweden
  | Switzerland
  | Turkiye
  | UKGreatBritain
  | UKNorthernIreland
  | UKNorthernIrelandEuropean
  | UKNorthernIrelandNational
  | Ukraine
deriving DecidableEq, Repr

/-- Model of `fn init_jurisdiction` (lib.rs 77-135).  The Rust `HashMap` is modelled
as an association list queried with `List.lookup`; its key set is
duplicate-free (proved below), so exact-match lookup agrees with the
`HashMap`. -/
def init_jurisdiction : List (String × Jurisdiction) :=
  [("al", .Albania),
   ("ad", .Andorra),
   ("am", .Armenia),
   ("at", .Austria),
   ("be-bru", .BelgiumBrussels),
   ("be-vlg", .BelgiumFlanders),
   ("be-wal", .BelgiumWallonia),
   ("bg", .Bulgaria),
   ("hr", .Croatia),
   ("cy", .Cyprus),
   ("cz", .Czechia),
   ("dk", .Denmark),
   ("ee", .Estonia),
   ("fi", .Finland),
   ("fr", .France),
   ("ge", .Georgia),
   ("de", .Germany),
   ("gi", .Gibraltar),
   ("gr", .Greece),
   ("hu", .Hungary),
   ("is", .Iceland),
   ("ie", .Ireland),
   ("it", .Italy),
   ("xk", .Kosovo),
   ("lv", .Latvia),
   ("lt", .Lithuania),
   ("lu", .Luxembourg),
   ("mt", .Malta),
   ("md", .Moldova),
   ("me", .Montenegro),
   ("nl", .Netherlands),
   ("mk", .NorthMacedonia),
   ("no", .Norway),
   ("pl", .Poland),
   ("pt", .Portugal),
   ("ro", .Romania),
   ("ru", .Russia),
   ("rs", .Serbia),
   ("sk", .Slovakia),
   ("si", .Slovenia),
   ("es", .Spain),
   ("se", .Sweden),
   ("ch", .Switzerland),
   ("tr", .Turkiye),
   ("gb", .UKGreatBritain),
   ("gb-nir", .UKNorthernIreland),
   ("gb-nir-E", .UKNorthernIrelandEuropean),
   ("gb-nir-N", .UKNorthernIrelandNational),
   ("ua", .Ukraine)]

/-- Model of `struct Poll` (lib.rs 151-175).  The `#[serde(flatten)]`
`HashMap<String, PollOption<PercentageOrSeats>>` of per-party results is
modelled as an association list in source column order. -/
structure Poll where
  polling_firm : String
  commissioners : PollOption String
  fieldwork_start : Date
  fieldwork_end : Date
  scope : Scope
  sample_size : PollOption F32
  sample_size_qualification : PollOption SampleSizeQualification
  participation : PollOption Percentage
  precision : PollOption PercentageOrSeats
  party_results : List (String × PollOption PercentageOrSeats)
  other : PollOption PercentageOrSeats
deriving DecidableEq, Repr

/-- Model of `struct PollTable` (lib.rs 139-142). -/
structure PollTable where
  polls : List Poll
  jurisdiction : Jurisdiction
deriving DecidableEq, Repr

/-- Model of `enum PollTableFromStrError` (errors.rs 15-21); the `csv::Error`
payload of `ReaderBuilderError` is kept as its message text. -/
inductive PollTableFromStrError where
  | ReaderBuilderError (msg : String)
  | InvalidJurisdictionError
deriving DecidableEq, Repr

/-- Model of `enum PollTableTryFromPathError` (errors.rs 3-13). -/
inductive PollTableTryFromPathError where
  | ReaderBuilderError (msg : String)
  | NotCsvError
  | InvalidPathError
  | InvalidJurisdictionError
deriving DecidableEq, Repr

/-- The fixed column headers claimed by named `Poll` fields; every other
header is collected into `party_results` by `#[serde(flatten)]`. -/
def fixedHeaders : List String :=
  ["Polling Firm", "Commissioners", "Fieldwork Start", "Fieldwork End",
   "Scope", "Sample Size", "Sample Size Qualification", "Participation",
   "Precision", "Other"]

def getField (pairs : List (String × String)) (k : String) :
    DResult String String :=
  match pairs.find? (fun p => p.1 == k) with
  | some p => .ok p.2
  | none => .err ("missing field " ++ k)

def liftOpt (o : Option α) (msg : String) : DResult String α :=
  match o with
  | some a => .ok a
  | none => .err msg

/-- Decode of the flattened per-party columns, in column order; the first
failing (or panicking) cell aborts the row. -/
def decodePartyResults :
    List (String × String) →
    DResult String (List (String × PollOption PercentageOrSeats))
  | [] => .ok []
  | (k, v) :: rest =>
      match decodePollOptionPercentageOrSeats v with
      | .ok pv =>
          match decodePartyResults rest with
          | .ok prs => .ok ((k, pv) :: prs)
          | .err e => .err e
          | .panicked m => .panicked m
      | .err e => .err e
      | .panicked m => .panicked m

/-- serde row decode of one CSV record into a `Poll`: the record is the
map from header to cell produced by the `csv` reader (failing with the
reader's length-mismatch error when the record is ragged), the fixed-name
columns use their field decoders, and all remaining columns land in
`party_results`. -/
def decodeRow (headers fields : List String) : DResult String Poll :=
  if headers.length ≠ fields.length then
    .err "CSV error: record length mismatch"
  else do
    let pairs := headers.zip fields
    let pf ← getField pairs "Polling Firm"
    let comm ← getField pairs "Commissioners"
    let fs ← getField pairs "Fieldwork Start"
    let fe ← getField pairs "Fieldwork End"
    let sc ← getField pairs "Scope"
    let ss ← getField pairs "Sample Size"
    let ssq ← getField pairs "Sample Size Qualification"
    let part ← getField pairs "Participation"
    let prec ← getField pairs "Precision"
    let oth ← getField pairs "Other"
    let fsd ← liftOpt (parseDate fs) "Failed to parse Fieldwork Start"
    let fed ← liftOpt (parseDate fe) "Failed to parse Fieldwork End"
    let scv ← decodeScope sc
    let ssv ← decodePollOptionF32 ss
    let ssqv ← decodePollOptionSampleSizeQualification ssq
    let partv ← decodePollOptionPercentage part
    let precv ← decodePollOptionPercentageOrSeats prec
    let othv ← decodePollOptionPercentageOrSeats oth
    let pr ← decodePartyResults
      (pairs.filter (fun p => !(fixedHeaders.contains p.1)))
    pure ⟨pf, decodePollOptionString comm, fsd, fed, scv, ssv, ssqv,
          partv, precv, pr, othv⟩

/-- The `for result in rdr.deserialize()` loop body shared by
`try_from_path`, `from_str` and `RawPollTable::from_str`: rows decode in
source order and the first failure (or panic) aborts the construction. -/
def decodeRows (headers : List String) :
    List (List String) → DResult String (List Poll)
  | [] => .ok []
  | r :: rs =>
      match decodeRow headers r with
      | .ok p =>
          match decodeRows headers rs with
          | .ok ps => .ok (p :: ps)
          | .err e => .err e
          | .panicked m => .panicked m
      | .err e => .err e
      | .panicked m => .panicked m

/-- The `csv` reader's record layer: newline-separated records (a trailing
`\r` is stripped, blank records are skipped) of comma-separated fields.
The inputs under analysis contain no quoted fields, so quoting is not
modelled. -/
def csvRecords (s : String) : List (List String) :=
  ((s.toList.splitOn '\n').map
      (fun l => (l.reverse.dropWhile (fun c => c = '\r')).reverse)).filter
    (fun l => !l.isEmpty) |>.map
    (fun l => (l.splitOn ',').map String.mk)

/-- Row decoding of a whole source: the first record is the header row
(`ReaderBuilder`'s default), an empty source yields no polls. -/
def decodeSource (s : String) : DResult String (List Poll) :=
  match csvRecords s with
  | [] => .ok []
  | h :: rows => decodeRows h rows

/-- Model of `PollTable::from_str` (lib.rs 261-281): resolve the explicit
jurisdiction code first, then decode every row; a row failure surfaces as
the csv-error variant `ReaderBuilderError`. -/
def PollTable.from_str (s : String) (jurisdiction : String) :
    DResult PollTableFromStrError PollTable :=
  match init_jurisdiction.lookup jurisdiction with
  | none => .err .InvalidJurisdictionError
  | some jv =>
      match decodeSource s with
      | .ok polls => .ok ⟨polls, jv⟩
      | .err e => .err (.ReaderBuilderError e)
      | .panicked m => .panicked m

/-- Model of `Path::file_name`: the component after the last `/`. -/
def fileNameOf (p : String) : List Char :=
  (p.toList.splitOn '/').getLastD []

/-- Model of `Path::file_stem` / `Path::extension` on a file name: split at the
last `.`, except that a lone leading `.` (hidden file) belongs to the
stem and gives no extension. -/
def splitExt (cs : List Char) : List Char × Option (List Char) :=
  match cs.reverse.dropWhile (fun c => c ≠ '.') with
  | [] => (cs, none)
  | _ :: revBefore =>
      if revBefore = [] then (cs, none)
      else (revBefore.reverse,
            some (cs.reverse.takeWhile (fun c => c ≠ '.')).reverse)

/-- Model of `PollTable::try_from_path` (lib.rs 212-248).  Opening the file is I/O
and is abstracted: `content` is the text the reader would stream.  The
path must carry a `csv` extension, its stem is the jurisdiction code, and
rows decode as in `from_str`.  (`InvalidPathError` for non-UTF-8 path
components cannot arise here since Lean strings are Unicode.) -/
def PollTable.try_from_path (path : String) (content : String) :
    DResult PollTableTryFromPathError PollTable :=
  let name := fileNameOf path
  match (splitExt name).2 with
  | none => .err .InvalidPathError
  | some ext =>
      if String.mk ext ≠ "csv" then .err .NotCsvError
      else
        match init_jurisdiction.lookup (String.mk (splitExt name).1) with
        | none => .err .InvalidJurisdictionError
        | some jv =>
            match decodeSource content with
            | .ok polls => .ok ⟨polls, jv⟩
            | .err e => .err (.ReaderBuilderError e)
            | .panicked m => .panicked m

/-- Model of `PollTable::poll_by_index` (lib.rs 289-291): a checked lookup. -/
def PollTable.poll_by_index (t : PollTable) (index : Nat) : Option Poll :=
  t.polls[index]?

/-- Model of `PollTable::polling_firm` (lib.rs 303-305): checked via `get(...)?`. -/
def PollTable.polling_firm (t : PollTable) (index : Nat) : Option String :=
  (t.polls[index]?).map (fun p => p.polling_firm)

/-- Model of `PollTable::commissioners` (lib.rs 317-319): checked via `get(...)?`. -/
def PollTable.commissioners (t : PollTable) (index : Nat) :
    Option (PollOption String) :=
  (t.polls[index]?).map (fun p => p.commissioners)

/-- Model of `PollTable::fieldwork_start` (lib.rs 331-333): `self.polls[index]`
panics when the index is out of bounds. -/
def PollTable.fieldwork_start (t : PollTable) (index : Nat) :
    DResult String Date :=
  match t.polls[index]? with
  | some p => .ok p.fieldwork_start
  | none => .panicked "index out of bounds"

/-- Model of `PollTable::fieldwork_end` (lib.rs 336-338): unchecked indexing. -/
def PollTable.fieldwork_end (t : PollTable) (index : Nat) :
    DResult String Date :=
  match t.polls[index]? with
  | some p => .ok p.fieldwork_end
  | none => .panicked "index out of bounds"

/-- Model of `PollTable::scope` (lib.rs 341-343): unchecked indexing. -/
def PollTable.scope (t : PollTable) (index : Nat) : DResult String Scope :=
  match t.polls[index]? with
  | some p => .ok p.scope
  | none => .panicked "index out of bounds"

/-- Model of `PollTable::sample_size` (lib.rs 345-347): unchecked indexing. -/
def PollTable.sample_size (t : PollTable) (index : Nat) :
    DResult String (PollOption F32) :=
  match t.polls[index]? with
  | some p => .ok p.sample_size
  | none => .panicked "index out of bounds"

/-- Model of `PollTable::sample_size_qualification` (lib.rs 349-351). -/
def PollTable.sample_size_qualification (t : PollTable) (index : Nat) :
    DResult String (PollOption SampleSizeQualification) :=
  match t.polls[index]? with
  | some p => .ok p.sample_size_qualification
  | none => .panicked "index out of bounds"

/-- Model of `PollTable::participation` (lib.rs 353-355): unchecked indexing. -/
def PollTable.participation (t : PollTable) (index : Nat) :
    DResult String (PollOption Percentage) :=
  match t.polls[index]? with
  | some p => .ok p.participation
  | none => .panicked "index out of bounds"

/-- Model of `PollTable::precision` (lib.rs 357-359): unchecked indexing. -/
def PollTable.precision (t : PollTable) (index : Nat) :
    DResult String (PollOption PercentageOrSeats) :=
  match t.polls[index]? with
  | some p => .ok p.precision
  | none => .panicked "index out of bounds"

/-- Model of `PollTable::party_results` (lib.rs 361-363): unchecked indexing. -/
def PollTable.party_results (t : PollTable) (index : Nat) :
    DResult String (List (String × PollOption PercentageOrSeats)) :=
  match t.polls[index]? with
  | some p => .ok p.party_results
  | none => .panicked "index out of bounds"

/-- Model of `PollTable::other` (lib.rs 365-367): unchecked indexing. -/
def PollTable.other (t : PollTable) (index : Nat) :
    DResult String (PollOption PercentageOrSeats) :=
  match t.polls[index]? with
  | some p => .ok p.other
  | none => .panicked "index out of bounds"

/-- The signed whole-day span computed inside `PollTable::date_range`
(lib.rs 373-387): `(first.fieldwork_end - last.fieldwork_start).num_days()`
as an `i64`, with the two `expect`s on an empty table modelled as panics. -/
def PollTable.date_range_signed (t : PollTable) : DResult String Int :=
  match t.polls.head? with
  | none => .panicked "Fieldwork End should not be empty"
  | some f =>
      match t.polls.getLast? with
      | none => .panicked "Fieldwork Start should not be empty"
      | some l =>
          .ok (daysFromCivil f.fieldwork_end - daysFromCivil l.fieldwork_start)

/-- Rust's `as usize` on an `i64`: two's-complement reinterpretation
modulo `2 ^ 64`. -/
def usizeCast (n : Int) : Nat :=
  (n % (2 ^ 64 : Int)).toNat

/-- Model of `PollTable::date_range` (lib.rs 373-387): the signed day span cast to
`usize` with `as`. -/
def PollTable.date_range (t : PollTable) : DResult String Nat :=
  match t.date_range_signed with
  | .ok n => .ok (usizeCast n)
  | .err e => .err e
  | .panicked m => .panicked m

/-- A minimal poll used to build concrete tables in theorems. -/
def mkPoll (start finish : Date) : Poll :=
  ⟨"Firm", .NotAvailable, start, finish, .National, .NotAvailable,
   .NotAvailable, .NotAvailable, .NotAvailable, [], .NotAvailable⟩

lemma contains_of_getLast (l : List Char) (c : Char)
    (h : l.getLast? = some c) : l.contains c = true := by
  induction l with
  | nil => simp at h
  | cons x xs ih =>
    cases xs with
    | nil =>
      simp only [List.getLast?_singleton, Option.some.injEq] at h
      subst h
      simp
    | cons y ys =>
      rw [List.getLast?_cons_cons] at h
      have hc := ih h
      simp only [List.contains_cons, hc, Bool.or_true]

lemma sentinel_not_contains_percent (val : String)
    (h : containsChar '%' val = true) :
    ¬(val = "Not Available" ∨ val = "N/A") := by
  rintro (rfl | rfl) <;> exact absurd h (by decide)

/-- C1 (amended): a raw cell that contains a `%` marker but whose remainder
after stripping trailing `%` is not numeric makes both the optional
Percentage decoder and the percentage branch of the optional
percentage-or-seats decoder abort with the fatal `expect` panic
"Should be able to parse percentage as f32"; no decode error is returned
to the caller. -/
theorem c1_percent_nonnumeric_panics (val : String)
    (h1 : containsChar '%' val = true)
    (h2 : parseF32 (trimEndPercent val) = none) :
    decodePollOptionPercentage val =
      .panicked "Should be able to parse percentage as f32" ∧
    decodePollOptionPercentageOrSeats val =
      .panicked "Should be able to parse percentage as f32" := by
  have hsent := sentinel_not_contains_percent val h1
  constructor
  · unfold decodePollOptionPercentage
    simp only [h1, if_true]
    rw [h2]
  · unfold decodePollOptionPercentageOrSeats
    rw [if_neg hsent]
    simp only [h1, if_true]
    rw [h2]

/-- C1 (counterexample): on `"abc%"`, which contains `%` with a
non-numeric remainder, both percentage decoders panic rather than
returning a decode error, refuting the claim that they fail with a
decode error and never panic. -/
theorem c1_counterexample :
    decodePollOptionPercentage "abc%" =
      .panicked "Should be able to parse percentage as f32" ∧
    decodePollOptionPercentageOrSeats "abc%" =
      .panicked "Should be able to parse percentage as f32" ∧
    containsChar '%' "abc%" = true ∧
    parseF32 (trimEndPercent "abc%") = none := by
  decide

/-- C1 (witness): the amended theorem applied at the concrete cell
`"zz%"`. -/
theorem c1_witness :
    decodePollOptionPercentage "zz%" =
      .panicked "Should be able to parse percentage as f32" ∧
    decodePollOptionPercentageOrSeats "zz%" =
      .panicked "Should be able to parse percentage as f32" :=
  c1_percent_nonnumeric_panics "zz%" (by decide) (by decide)

/-- C2 (amended): for the optional string, number, sample-size-
qualification and percentage-or-seats decoders, the unavailable marker is
produced exactly on the two sentinel spellings `"Not Available"` and
`"N/A"`, matched exactly.  The optional Percentage decoder instead
produces the unavailable marker exactly when the text has no `%` marker
and merely *contains* one of the sentinel spellings as a substring, so it
does swallow other text (e.g. `"xN/A"`) as unavailable. -/
theorem c2_sentinel_characterization (val : String) :
    (decodePollOptionString val = .NotAvailable ↔
       (val = "Not Available" ∨ val = "N/A")) ∧
    (decodePollOptionF32 val = .ok .NotAvailable ↔
       (val = "Not Available" ∨ val = "N/A")) ∧
    (decodePollOptionSampleSizeQualification val = .ok .NotAvailable ↔
       (val = "Not Available" ∨ val = "N/A")) ∧
    (decodePollOptionPercentageOrSeats val = .ok .NotAvailable ↔
       (val = "Not Available" ∨ val = "N/A")) ∧
    (decodePollOptionPercentage val = .ok .NotAvailable ↔
       (containsChar '%' val = false ∧
        (isSubstrOf ("Not Available".toList) val.toList ||
         isSubstrOf ("N/A".toList) val.toList) = true)) := by
  refine ⟨?_, ?_, ?_, ?_, ?_⟩
  · constructor
    · intro h
      by_contra hc
      rw [decodePollOptionString, if_neg hc] at h
      exact PollOption.noConfusion h
    · intro h
      rw [decodePollOptionString, if_pos h]
  · constructor
    · intro h
      by_contra hc
      unfold decodePollOptionF32 at h
      cases hp : parseF32 val <;> simp only [hp] at h
      · rw [if_neg hc] at h
        exact DResult.noConfusion h
      · exact PollOption.noConfusion (DResult.ok.inj h)
    · rintro (rfl | rfl) <;> decide
  · constructor
    · intro h
      by_contra hc
      unfold decodePollOptionSampleSizeQualification at h
      split_ifs at h <;> simp_all
    · rintro (rfl | rfl) <;> decide
  · constructor
    · intro h
      by_contra hc
      unfold decodePollOptionPercentageOrSeats at h
      rw [if_neg hc] at h
      split_ifs at h
      · cases hp : parseF32 (trimEndPercent val) <;> simp only [hp] at h
        · exact DResult.noConfusion h
        · exact PollOption.noConfusion (DResult.ok.inj h)
      · cases hp : parseF32 val <;> simp only [hp] at h
        · exact DResult.noConfusion h
        · exact PollOption.noConfusion (DResult.ok.inj h)
    · rintro (rfl | rfl) <;> decide
  · constructor
    · intro h
      unfold decodePollOptionPercentage at h
      split_ifs at h with h1 h2
      · cases hp : parseF32 (trimEndPercent val) <;> simp only [hp] at h
        · exact DResult.noConfusion h
        · exact PollOption.noConfusion (DResult.ok.inj h)
      · exact ⟨by simpa using h1, h2⟩
    · rintro ⟨h1, h2⟩
      unfold decodePollOptionPercentage
      rw [if_neg (by simp [h1]), if_pos h2]

/-- C2 (counterexample): the cell `"xN/A"` is not one of the two sentinel
spellings, yet the optional Percentage decoder swallows it as the
unavailable marker, refuting the exact-equality claim. -/
theorem c2_counterexample :
    decodePollOptionPercentage "xN/A" = .ok .NotAvailable ∧
    "xN/A" ≠ "Not Available" ∧ "xN/A" ≠ "N/A" := by
  decide

/-- C3: in the optional percentage-or-seats decoder — the one decoder used
for every such cell regardless of column — text ending in `%` whose
remainder (after stripping trailing `%`) parses as a number yields the
Percentage variant holding that number, and text without `%` that parses
as a number yields the Seats variant holding that number. -/
theorem c3_percentage_or_seats_shape (val : String) (v : F32) :
    (val.toList.getLast? = some '%' →
       parseF32 (trimEndPercent val) = some v →
       decodePollOptionPercentageOrSeats val =
         .ok (.Some (.Percentage ⟨v⟩))) ∧
    (containsChar '%' val = false → parseF32 val = some v →
       decodePollOptionPercentageOrSeats val =
         .ok (.Some (.Seats ⟨v⟩))) := by
  constructor
  · intro hend hp
    have hc : containsChar '%' val = true :=
      contains_of_getLast val.toList '%' hend
    have hsent := sentinel_not_contains_percent val hc
    unfold decodePollOptionPercentageOrSeats
    rw [if_neg hsent]
    simp only [hc, if_true]
    rw [hp]
  · intro hc hp
    have hsent : ¬(val = "Not Available" ∨ val = "N/A") := by
      rintro (rfl | rfl)
      · rw [show parseF32 "Not Available" = none from by decide] at hp
        exact Option.noConfusion hp
      · rw [show parseF32 "N/A" = none from by decide] at hp
        exact Option.noConfusion hp
    unfold decodePollOptionPercentageOrSeats
    rw [if_neg hsent]
    simp only [hc, Bool.false_eq_true, if_false]
    rw [hp]

/-- C3 (witness): the theorem applied at the concrete cells `"30%"` and
`"7"`. -/
theorem c3_witness :
    decodePollOptionPercentageOrSeats "30%" =
      .ok (.Some (.Percentage ⟨.finite 30 0⟩)) ∧
    decodePollOptionPercentageOrSeats "7" =
      .ok (.Some (.Seats ⟨.finite 7 0⟩)) :=
  ⟨(c3_percentage_or_seats_shape "30%" (.finite 30 0)).1 (by decide)
      (by decide),
   (c3_percentage_or_seats_shape "7" (.finite 7 0)).2 (by decide)
      (by decide)⟩

/-- C4: jurisdiction resolution is total over the fixed table: its key set
is duplicate-free (each code has exactly one jurisdiction), `"gb"` and
`"gb-nir"` resolve to two distinct jurisdictions, the absent codes `"xe"`
and `"us"` miss, and a lookup miss makes both construction entry points
return `InvalidJurisdictionError` — never a panic, a default, or one of
the malformed-path kinds. -/
theorem c4_jurisdiction_resolution :
    (init_jurisdiction.map Prod.fst).Nodup ∧
    init_jurisdiction.lookup "gb" = some .UKGreatBritain ∧
    init_jurisdiction.lookup "gb-nir" = some .UKNorthernIreland ∧
    Jurisdiction.UKGreatBritain ≠ Jurisdiction.UKNorthernIreland ∧
    init_jurisdiction.lookup "xe" = none ∧
    init_jurisdiction.lookup "us" = none ∧
    (∀ s code, init_jurisdiction.lookup code = none →
       PollTable.from_str s code = .err .InvalidJurisdictionError) ∧
    (∀ path content,
       (splitExt (fileNameOf path)).2 = some ("csv".toList) →
       init_jurisdiction.lookup (String.mk (splitExt (fileNameOf path)).1) =
         none →
       PollTable.try_from_path path content =
         .err .InvalidJurisdictionError) := by
  refine ⟨by decide, by decide, by decide, by decide, by decide, by decide,
          ?_, ?_⟩
  · intro s code h
    unfold PollTable.from_str
    rw [h]
  · intro path content h1 h2
    unfold PollTable.try_from_path
    simp only [h1]
    rw [if_neg (by decide)]
    simp only [h2]

/-- C4 (witness): the theorem applied to the concrete absent codes `"xe"`
(via `from_str`) and `"us"` (via `try_from_path` on `us.csv`). -/
theorem c4_witness :
    PollTable.from_str "" "xe" = .err .InvalidJurisdictionError ∧
    PollTable.try_from_path "us.csv" "" = .err .InvalidJurisdictionError :=
  ⟨c4_jurisdiction_resolution.2.2.2.2.2.2.1 "" "xe" (by decide),
   c4_jurisdiction_resolution.2.2.2.2.2.2.2 "us.csv" "" (by decide)
     (by decide)⟩

/-- C5: the one-row example source decodes to exactly the claimed record:
firm "Epic Polling", commissioners unavailable, fieldwork 2024-03-06 to
2024-03-08, National scope, sample size 2054 Provided, participation
unavailable, precision Percentage(1), party results First Party ↦
Percentage(30) and Second Party ↦ Percentage(40), other Percentage(5). -/
theorem c5_end_to_end_example :
    PollTable.from_str
      ("Polling Firm,Commissioners,Fieldwork Start,Fieldwork End,Scope,Sample Size,Sample Size Qualification,Participation,Precision,First Party,Second Party,Other\nEpic Polling,Not Available,2024-03-06,2024-03-08,National,2054,Provided,N/A,1%,30%,40%,5%")
      "de" =
    .ok ⟨[⟨"Epic Polling", .NotAvailable, ⟨2024, 3, 6⟩, ⟨2024, 3, 8⟩,
          .National, .Some (.finite 2054 0), .Some .Provided,
          .NotAvailable, .Some (.Percentage ⟨.finite 1 0⟩),
          [("First Party", .Some (.Percentage ⟨.finite 30 0⟩)),
           ("Second Party", .Some (.Percentage ⟨.finite 40 0⟩))],
          .Some (.Percentage ⟨.finite 5 0⟩)⟩], .Germany⟩ := by
  decide

/-- C6 (amended): whenever the span from the last record's fieldwork start
to the first record's fieldwork end is non-negative (and below `2 ^ 64`,
which holds for every date `chrono` can represent), `date_range` returns
exactly that difference in whole days; when the signed span is negative,
the `as usize` cast wraps it instead (see the counterexample). -/
theorem c6_date_range_difference (t : PollTable) (f l : Poll)
    (hf : t.polls.head? = some f) (hl : t.polls.getLast? = some l)
    (h0 : 0 ≤ daysFromCivil f.fieldwork_end - daysFromCivil l.fieldwork_start)
    (h64 : daysFromCivil f.fieldwork_end - daysFromCivil l.fieldwork_start <
             2 ^ 64) :
    PollTable.date_range t =
      .ok (daysFromCivil f.fieldwork_end -
             daysFromCivil l.fieldwork_start).toNat := by
  unfold PollTable.date_range PollTable.date_range_signed
  simp only [hf, hl]
  unfold usizeCast
  rw [Int.emod_eq_of_lt h0 h64]

/-- C6 (counterexample): a two-row table whose first record's fieldwork
end (2024-03-06) precedes its last record's fieldwork start (2024-03-08):
the true day difference is `-2`, but `date_range` returns the wrapped
`usize` value `2 ^ 64 - 2`, not the difference. -/
theorem c6_counterexample :
    PollTable.date_range
      ⟨[mkPoll ⟨2024, 3, 1⟩ ⟨2024, 3, 6⟩,
        mkPoll ⟨2024, 3, 8⟩ ⟨2024, 3, 9⟩], .Germany⟩ =
      .ok 18446744073709551614 ∧
    daysFromCivil ⟨2024, 3, 6⟩ - daysFromCivil ⟨2024, 3, 8⟩ = -2 := by
  decide

/-- C6 (witness): the amended theorem applied to the claimed two-row
example (first row's fieldwork end 2024-03-08, last row's fieldwork start
2024-03-06), giving 2 days. -/
theorem c6_witness :
    PollTable.date_range
      ⟨[mkPoll ⟨2024, 3, 1⟩ ⟨2024, 3, 8⟩,
        mkPoll ⟨2024, 3, 6⟩ ⟨2024, 3, 7⟩], .Germany⟩ = .ok 2 := by
  have h := c6_date_range_difference
    ⟨[mkPoll ⟨2024, 3, 1⟩ ⟨2024, 3, 8⟩,
      mkPoll ⟨2024, 3, 6⟩ ⟨2024, 3, 7⟩], .Germany⟩
    (mkPoll ⟨2024, 3, 1⟩ ⟨2024, 3, 8⟩) (mkPoll ⟨2024, 3, 6⟩ ⟨2024, 3, 7⟩)
    (by decide) (by decide) (by decide) (by decide)
  rw [h]
  decide

lemma from_str_ok (s j : String) (t : PollTable)
    (h : PollTable.from_str s j = .ok t) :
    init_jurisdiction.lookup j = some t.jurisdiction ∧
    decodeSource s = .ok t.polls := by
  unfold PollTable.from_str at h
  cases hj : init_jurisdiction.lookup j <;> rw [hj] at h
  · exact DResult.noConfusion h
  · cases hd : decodeSource s <;> rw [hd] at h
    · injection h with h'
      subst h'
      exact ⟨rfl, rfl⟩
    · exact DResult.noConfusion h
    · exact DResult.noConfusion h

lemma decodeRows_ok_forall₂ (hs : List String) (rs : List (List String))
    (ps : List Poll) (hok : decodeRows hs rs = .ok ps) :
    List.Forall₂ (fun r p => decodeRow hs r = .ok p) rs ps := by
  induction rs generalizing ps with
  | nil =>
    unfold decodeRows at hok
    injection hok with h'
    subst h'
    exact List.Forall₂.nil
  | cons a as ih =>
    unfold decodeRows at hok
    cases ha : decodeRow hs a <;> rw [ha] at hok
    · cases has : decodeRows hs as <;> rw [has] at hok
      · injection hok with h'
        subst h'
        exact List.Forall₂.cons ha (ih _ has)
      · exact DResult.noConfusion hok
      · exact DResult.noConfusion hok
    · exact DResult.noConfusion hok
    · exact DResult.noConfusion hok

lemma decodeRows_ok_mem (hs : List String) (rs : List (List String))
    (ps : List Poll) (hok : decodeRows hs rs = .ok ps) (r : List String)
    (hr : r ∈ rs) : ∃ p, decodeRow hs r = .ok p := by
  induction rs generalizing ps with
  | nil => simp at hr
  | cons a as ih =>
    unfold decodeRows at hok
    cases ha : decodeRow hs a <;> rw [ha] at hok
    · cases has : decodeRows hs as <;> rw [has] at hok
      · rcases List.mem_cons.mp hr with rfl | hr'
        · exact ⟨_, ha⟩
        · exact ih _ has hr'
      · exact DResult.noConfusion hok
      · exact DResult.noConfusion hok
    · exact DResult.noConfusion hok
    · exact DResult.noConfusion hok

lemma try_from_path_ok (path content : String) (t : PollTable)
    (h : PollTable.try_from_path path content = .ok t) :
    decodeSource content = .ok t.polls := by
  unfold PollTable.try_from_path at h
  cases hx : (splitExt (fileNameOf path)).2 with
  | none =>
    simp only [hx] at h
    exact DResult.noConfusion h
  | some ext =>
    simp only [hx] at h
    by_cases hcsv : String.mk ext ≠ "csv"
    · rw [if_pos hcsv] at h
      exact DResult.noConfusion h
    · rw [if_neg hcsv] at h
      cases hj : init_jurisdiction.lookup
          (String.mk (splitExt (fileNameOf path)).1) <;> rw [hj] at h
      · exact DResult.noConfusion h
      · cases hd : decodeSource content <;> rw [hd] at h
        · injection h with h2
          subst h2
          rfl
        · exact DResult.noConfusion h
        · exact DResult.noConfusion h

lemma decodeSource_not_ok (s : String) (hdr : List String)
    (rows : List (List String)) (r : List String)
    (hcr : csvRecords s = hdr :: rows) (hmem : r ∈ rows)
    (hne : ∀ p, decodeRow hdr r ≠ .ok p) :
    ∀ ps, decodeSource s ≠ .ok ps := by
  intro ps hok
  unfold decodeSource at hok
  rw [hcr] at hok
  obtain ⟨p, hp⟩ := decodeRows_ok_mem hdr rows ps hok r hmem
  exact hne p hp

/-- C7 (amended): table construction from a path and from text is atomic
with respect to row decoding.  A successful construction contains exactly
the decode of every source row in order (`List.Forall₂` pairs row `i`
with poll `i`), so callers never observe a partially populated table; a
successful `from_str` also records the resolved jurisdiction.  If any row
of the source fails to decode, neither entry point returns a poll table,
and the outcome of the failed construction is either a typed error value
or — for the panicking percentage cells — the propagated panic, rather
than always a typed error. -/
theorem c7_atomic_construction :
    (∀ s j t, PollTable.from_str s j = .ok t →
       init_jurisdiction.lookup j = some t.jurisdiction ∧
       ((csvRecords s = [] ∧ t.polls = []) ∨
        (∃ hdr rows, csvRecords s = hdr :: rows ∧
           List.Forall₂ (fun r p => decodeRow hdr r = .ok p) rows
             t.polls))) ∧
    (∀ path content t, PollTable.try_from_path path content = .ok t →
       ((csvRecords content = [] ∧ t.polls = []) ∨
        (∃ hdr rows, csvRecords content = hdr :: rows ∧
           List.Forall₂ (fun r p => decodeRow hdr r = .ok p) rows
             t.polls))) ∧
    (∀ s j hdr rows r, csvRecords s = hdr :: rows → r ∈ rows →
       (∀ p, decodeRow hdr r ≠ .ok p) →
       (PollTable.from_str s j).isOk = false) ∧
    (∀ path content hdr rows r, csvRecords content = hdr :: rows →
       r ∈ rows → (∀ p, decodeRow hdr r ≠ .ok p) →
       (PollTable.try_from_path path content).isOk = false) ∧
    (∀ (ε α : Type) (res : DResult ε α), res.isOk = false →
       (∃ e, res = .err e) ∨ (∃ m, res = .panicked m)) := by
  refine ⟨?_, ?_, ?_, ?_, ?_⟩
  · intro s j t ht
    obtain ⟨hj, hd⟩ := from_str_ok s j t ht
    refine ⟨hj, ?_⟩
    unfold decodeSource at hd
    cases hcr : csvRecords s with
    | nil =>
      rw [hcr] at hd
      injection hd with h'
      exact Or.inl ⟨rfl, h'.symm⟩
    | cons hdr rows =>
      rw [hcr] at hd
      exact Or.inr ⟨hdr, rows, rfl, decodeRows_ok_forall₂ _ _ _ hd⟩
  · intro path content t ht
    have hd := try_from_path_ok path content t ht
    unfold decodeSource at hd
    cases hcr : csvRecords content with
    | nil =>
      rw [hcr] at hd
      injection hd with h'
      exact Or.inl ⟨rfl, h'.symm⟩
    | cons hdr rows =>
      rw [hcr] at hd
      exact Or.inr ⟨hdr, rows, rfl, decodeRows_ok_forall₂ _ _ _ hd⟩
  · intro s j hdr rows r hcr hmem hne
    cases hres : PollTable.from_str s j with
    | ok t =>
      exact absurd (from_str_ok s j t hres).2
        (decodeSource_not_ok s hdr rows r hcr hmem hne t.polls)
    | err e => rfl
    | panicked m => rfl
  · intro path content hdr rows r hcr hmem hne
    cases hres : PollTable.try_from_path path content with
    | ok t =>
      exact absurd (try_from_path_ok path content t hres)
        (decodeSource_not_ok content hdr rows r hcr hmem hne t.polls)
    | err e => rfl
    | panicked m => rfl
  · intro ε α res h
    cases res with
    | ok v => exact absurd h (by simp [DResult.isOk])
    | err e => exact Or.inl ⟨e, rfl⟩
    | panicked m => exact Or.inr ⟨m, rfl⟩

/-- C7 (counterexample): a source whose single data row carries the
non-numeric percentage cell `"abc%"` makes both construction entry points
abort with the propagated panic instead of failing with a typed error,
refuting the claim that any field grammar failure makes the construction
fail with a typed error. -/
theorem c7_counterexample :
    PollTable.from_str
      "Polling Firm,Commissioners,Fieldwork Start,Fieldwork End,Scope,Sample Size,Sample Size Qualification,Participation,Precision,Other\nFirm,N/A,2024-03-06,2024-03-08,National,N/A,N/A,abc%,N/A,N/A"
      "de" = .panicked "Should be able to parse percentage as f32" ∧
    PollTable.try_from_path "de.csv"
      "Polling Firm,Commissioners,Fieldwork Start,Fieldwork End,Scope,Sample Size,Sample Size Qualification,Participation,Precision,Other\nFirm,N/A,2024-03-06,2024-03-08,National,N/A,N/A,abc%,N/A,N/A"
      = .panicked "Should be able to parse percentage as f32" := by
  decide

/-- C7 (witness): the two failure conjuncts applied to a concrete source
whose single data row has the malformed scope `"Regional"`: neither entry
point returns a table. -/
theorem c7_witness :
    (PollTable.from_str
      "Polling Firm,Commissioners,Fieldwork Start,Fieldwork End,Scope,Sample Size,Sample Size Qualification,Participation,Precision,Other\nFirm,N/A,2024-03-06,2024-03-08,Regional,N/A,N/A,N/A,N/A,N/A"
      "de").isOk = false ∧
    (PollTable.try_from_path "de.csv"
      "Polling Firm,Commissioners,Fieldwork Start,Fieldwork End,Scope,Sample Size,Sample Size Qualification,Participation,Precision,Other\nFirm,N/A,2024-03-06,2024-03-08,Regional,N/A,N/A,N/A,N/A,N/A").isOk
      = false := by
  have he : decodeRow fixedHeaders
      ["Firm", "N/A", "2024-03-06", "2024-03-08", "Regional", "N/A", "N/A",
       "N/A", "N/A", "N/A"] = .err "Failed to parse Scope" := by decide
  have hne : ∀ p, decodeRow fixedHeaders
      ["Firm", "N/A", "2024-03-06", "2024-03-08", "Regional", "N/A", "N/A",
       "N/A", "N/A", "N/A"] ≠ .ok p :=
    fun p hp => by rw [he] at hp; exact DResult.noConfusion hp
  exact ⟨c7_atomic_construction.2.2.1 _ "de" fixedHeaders
           [["Firm", "N/A", "2024-03-06", "2024-03-08", "Regional", "N/A",
             "N/A", "N/A", "N/A", "N/A"]]
           ["Firm", "N/A", "2024-03-06", "2024-03-08", "Regional", "N/A",
            "N/A", "N/A", "N/A", "N/A"]
           (by decide) (by decide) hne,
         c7_atomic_construction.2.2.2.1 "de.csv" _ fixedHeaders
           [["Firm", "N/A", "2024-03-06", "2024-03-08", "Regional", "N/A",
             "N/A", "N/A", "N/A", "N/A"]]
           ["Firm", "N/A", "2024-03-06", "2024-03-08", "Regional", "N/A",
            "N/A", "N/A", "N/A", "N/A"]
           (by decide) (by decide) hne⟩

lemma getLast?_cons_isSome (x : α) (xs : List α) :
    ∃ y, (x :: xs).getLast? = some y := by
  induction xs generalizing x with
  | nil => exact ⟨x, rfl⟩
  | cons a as ih =>
    rw [List.getLast?_cons_cons]
    exact ih a

/-- C8: `date_range` on a table with an empty row sequence is the fatal
`expect` panic "Fieldwork End should not be empty" — an abort, not an
error value — and on any table with at least one poll the panicking
branches are unreachable. -/
theorem c8_empty_date_range_panics :
    (∀ j, PollTable.date_range ⟨[], j⟩ =
        .panicked "Fieldwork End should not be empty") ∧
    (∀ (t : PollTable) (m : String), t.polls ≠ [] →
        PollTable.date_range t ≠ .panicked m) := by
  constructor
  · intro j
    rfl
  · intro t m h
    cases ht : t.polls with
    | nil => exact absurd ht h
    | cons x xs =>
      obtain ⟨y, hy⟩ := getLast?_cons_isSome x xs
      unfold PollTable.date_range PollTable.date_range_signed
      simp only [ht, List.head?_cons, hy]
      simp

/-- C8 (witness): the theorem at the empty table and at a concrete
one-poll table. -/
theorem c8_witness :
    PollTable.date_range ⟨[], .Germany⟩ =
      .panicked "Fieldwork End should not be empty" ∧
    PollTable.date_range ⟨[mkPoll ⟨2024, 3, 6⟩ ⟨2024, 3, 8⟩], .Germany⟩ ≠
      .panicked "Fieldwork End should not be empty" :=
  ⟨c8_empty_date_range_panics.1 .Germany,
   c8_empty_date_range_panics.2 _ _ (by decide)⟩

/-- C9: decoding does not validate fieldwork chronology — the row with
fieldwork end 2024-03-06 strictly before fieldwork start 2024-03-08
decodes successfully — and the signed whole-day span
(`num_days` inside `date_range`) computed over the resulting table is the
negative value `-2`. -/
theorem c9_negative_span :
    PollTable.from_str
      "Polling Firm,Commissioners,Fieldwork Start,Fieldwork End,Scope,Sample Size,Sample Size Qualification,Participation,Precision,Other\nFirm,N/A,2024-03-08,2024-03-06,National,N/A,N/A,N/A,N/A,N/A"
      "de" =
      .ok ⟨[⟨"Firm", .NotAvailable, ⟨2024, 3, 8⟩, ⟨2024, 3, 6⟩, .National,
            .NotAvailable, .NotAvailable, .NotAvailable, .NotAvailable, [],
            .NotAvailable⟩], .Germany⟩ ∧
    PollTable.date_range_signed
      ⟨[⟨"Firm", .NotAvailable, ⟨2024, 3, 8⟩, ⟨2024, 3, 6⟩, .National,
         .NotAvailable, .NotAvailable, .NotAvailable, .NotAvailable, [],
         .NotAvailable⟩], .Germany⟩ = .ok (-2) ∧
    ((-2 : Int) < 0) := by
  decide

/-- C10: for every index at or past the number of polls, `poll_by_index`,
`polling_firm` and `commissioners` return `none`, while the nine
direct-indexing accessors panic ("index out of bounds") instead of
returning an optional value. -/
theorem c10_accessor_out_of_bounds (t : PollTable) (i : Nat)
    (h : t.polls.length ≤ i) :
    t.poll_by_index i = none ∧
    t.polling_firm i = none ∧
    t.commissioners i = none ∧
    t.fieldwork_start i = .panicked "index out of bounds" ∧
    t.fieldwork_end i = .panicked "index out of bounds" ∧
    t.scope i = .panicked "index out of bounds" ∧
    t.sample_size i = .panicked "index out of bounds" ∧
    t.sample_size_qualification i = .panicked "index out of bounds" ∧
    t.participation i = .panicked "index out of bounds" ∧
    t.precision i = .panicked "index out of bounds" ∧
    t.party_results i = .panicked "index out of bounds" ∧
    t.other i = .panicked "index out of bounds" := by
  have hn : t.polls[i]? = none := List.getElem?_eq_none h
  simp [PollTable.poll_by_index, PollTable.polling_firm,
        PollTable.commissioners, PollTable.fieldwork_start,
        PollTable.fieldwork_end, PollTable.scope, PollTable.sample_size,
        PollTable.sample_size_qualification, PollTable.participation,
        PollTable.precision, PollTable.party_results, PollTable.other, hn]

/-- C10 (witness): the theorem at the empty table and index 0. -/
theorem c10_witness :
    PollTable.poll_by_index ⟨[], .Albania⟩ 0 = none ∧
    PollTable.polling_firm ⟨[], .Albania⟩ 0 = none ∧
    PollTable.commissioners ⟨[], .Albania⟩ 0 = none ∧
    PollTable.fieldwork_start ⟨[], .Albania⟩ 0 =
      .panicked "index out of bounds" ∧
    PollTable.fieldwork_end ⟨[], .Albania⟩ 0 =
      .panicked "index out of bounds" ∧
    PollTable.scope ⟨[], .Albania⟩ 0 = .panicked "index out of bounds" ∧
    PollTable.sample_size ⟨[], .Albania⟩ 0 =
      .panicked "index out of bounds" ∧
    PollTable.sample_size_qualification ⟨[], .Albania⟩ 0 =
      .panicked "index out of bounds" ∧
    PollTable.participation ⟨[], .Albania⟩ 0 =
      .panicked "index out of bounds" ∧
    PollTable.precision ⟨[], .Albania⟩ 0 =
      .panicked "index out of bounds" ∧
    PollTable.party_results ⟨[], .Albania⟩ 0 =
      .panicked "index out of bounds" ∧
    PollTable.other ⟨[], .Albania⟩ 0 = .panicked "index out of bounds" :=
  c10_accessor_out_of_bounds ⟨[], .Albania⟩ 0 (by decide)

end EuropeElects

